import Mathlib

/-!
Verification of the kue-unique registry (src/index.js).

The module patches kue's `Job` with a unique-job registry: a single JSON
document in the backing store mapping uniqueness keys to job ids.  We embed
the registry operations and the patched `save`/`remove` flows shallowly:

* the stored blob is modelled by `Blob` (absent key, JSON `null`, malformed
  content, or a parsed document);
* node-style callbacks `done(error, value)` become explicit
  `Option Err × value` results;
* every store / queue-engine access performed by a flow is recorded in a
  `Trace`, so frame claims (which reads and writes are issued) are statable;
* a JavaScript `TypeError` (dereferencing `null`/`undefined`) is the
  `SaveOut.crash` outcome.

Code of kue itself (the original `Job.prototype.save` / `Job.prototype.remove`
and `Job.get`) is not part of this repository; those collaborators are
modelled from the spec (section 6) as `previousSave`, `previousRemove` and
`engineFetch`.
-/

namespace KueUnique

/-- Uniqueness keys are caller-supplied strings. -/
abbrev Key := String

/-- Job identifiers, assigned by the queue engine. -/
abbrev JobId := Nat

/-- Opaque store / engine error tokens. -/
abbrev Err := Nat

/-- The unique-jobs document: a JSON object mapping uniqueness keys to job
ids, modelled as an association list (JS object key order preserved). -/
abbrev Doc := List (Key × JobId)

/-- Content stored in the backing store under the fixed `unique:jobs` key. -/
inductive Blob where
  /-- No value stored under the key (redis GET returns null). -/
  | absent
  /-- The literal JSON value `null`. -/
  | nullContent
  /-- Content that fails to parse as JSON. -/
  | malformed
  /-- A parsed mapping document. -/
  | doc (d : Doc)
deriving DecidableEq, Repr

/-- One external access performed by a flow. -/
inductive Op where
  /-- A read of the registry document (`Job.client.get`). -/
  | storeGet
  /-- A write of the registry document (`Job.client.set`), recording the
  serialized content. -/
  | storeSet (d : Doc)
  /-- A queue-engine fetch of a job by id (`Job.get`). -/
  | jobGet (id : JobId)
  /-- The queue engine's plain job creation (original `save`). -/
  | jobSave
  /-- The queue engine's plain job removal (original `remove`). -/
  | jobRemove
deriving DecidableEq, Repr

/-- The accesses a flow performed, in order of issuance. -/
abbrev Trace := List Op

/-- JSON parsing as performed at src/index.js:45-54: a stored document parses
to itself; absence (`JSON.parse(null)` yields `null`), literal `null` and
malformed content all normalize to the empty mapping. -/
def parseBlob : Blob → Doc
  | Blob.doc d => d
  | _ => []

/-- Lodash `_.pick(doc, k)` (src/index.js:79): the sub-document holding only
the entries whose key is `k`. -/
def pick (d : Doc) (k : Key) : Doc :=
  d.filter (fun p => p.1 == k)

/-- JS object assignment `doc[k] = v` as performed by `_.merge` for scalar
values: an existing entry for `k` is overwritten in place, a fresh key is
appended. -/
def setEntry (d : Doc) (k : Key) (v : JobId) : Doc :=
  if d.any (fun p => p.1 == k) then
    d.map (fun p => if p.1 == k then (k, v) else p)
  else d ++ [(k, v)]

/-- Lodash `_.merge(dst, src)` (src/index.js:142) restricted to the flat
string-to-id documents the module stores: each entry of `src` overwrites or
extends `dst`. -/
def mergeDoc (d u : Doc) : Doc :=
  u.foldl (fun acc p => setEntry acc p.1 p.2) d

/-- Result of a registry read: the callback pair `(error, data)` plus the
trace of store accesses issued. -/
structure RegRead where
  trace : Trace
  error : Option Err
  doc : Doc
deriving DecidableEq, Repr

/-- Result of a registry read-modify-write: the callback pair plus the trace
and the store content after the operation. -/
structure RegWrite where
  trace : Trace
  error : Option Err
  doc : Doc
  blob : Blob
deriving DecidableEq, Repr

/-- Embeds `Job.getUniqueJobsData` (src/index.js:38-58).  `gerr` is the
outcome of the underlying `client.get`: on a store error the callback data
argument is undefined, `JSON.parse` throws, and the catch substitutes the
empty mapping; the store error itself is passed through to the callback. -/
def getUniqueJobsData (gerr : Option Err) (b : Blob) : RegRead :=
  match gerr with
  | some e => ⟨[Op.storeGet], some e, []⟩
  | none => ⟨[Op.storeGet], none, parseBlob b⟩

/-- Embeds `Job.getUniqueJobData` (src/index.js:69-84): read the document and
pick the entry for `unique`.  On a read error the waterfall aborts,
forwarding the error and the (empty) data it was called with. -/
def getUniqueJobData (k : Key) (gerr : Option Err) (b : Blob) : RegRead :=
  let r := getUniqueJobsData gerr b
  match r.error with
  | some e => ⟨r.trace, some e, r.doc⟩
  | none => ⟨r.trace, none, pick r.doc k⟩

/-- Embeds `Job.saveUniqueJobsData` (src/index.js:131-153): read the
document, merge `u` into it, write the result back, and hand the merged
document to the callback together with any write error.  On a read error the
waterfall aborts before the write; on a write error the store is taken to
keep its prior content. -/
def saveUniqueJobsData (u : Doc) (gerr serr : Option Err) (b : Blob) : RegWrite :=
  let r := getUniqueJobsData gerr b
  match r.error with
  | some e => ⟨r.trace, some e, r.doc, b⟩
  | none =>
    let m := mergeDoc r.doc u
    match serr with
    | some e => ⟨r.trace ++ [Op.storeSet m], some e, m, b⟩
    | none => ⟨r.trace ++ [Op.storeSet m], none, m, Blob.doc m⟩

/-- Embeds `Job.removeUniqueJobData` (src/index.js:95-120): read the
document, omit every entry whose value equals `id`, write the result back,
and hand the filtered document to the callback together with any write
error. -/
def removeUniqueJobData (id : JobId) (gerr serr : Option Err) (b : Blob) : RegWrite :=
  let r := getUniqueJobsData gerr b
  match r.error with
  | some e => ⟨r.trace, some e, r.doc, b⟩
  | none =>
    let m := r.doc.filter (fun p => !(p.2 == id))
    match serr with
    | some e => ⟨r.trace ++ [Op.storeSet m], some e, m, b⟩
    | none => ⟨r.trace ++ [Op.storeSet m], none, m, Blob.doc m⟩

/-- A job's data payload; only the `unique` field matters to this module. -/
structure JobData where
  unique : Option Key
deriving DecidableEq, Repr

/-- A kue job as this module sees it: an engine-assigned id, an optional data
payload (`none` models JS `undefined`), and the transient already-exist
flag. -/
structure JobRec where
  id : JobId
  data : Option JobData
  alreadyExist : Bool
deriving DecidableEq, Repr

/-- Embeds `Job.prototype.unique` (src/index.js:162-168):
`_.merge(this.data || \x7bunique\x7d, ...)` mutates `this.data` in place when it
is an object; when `this.data` is undefined the merge target is a fresh
object whose result is discarded, so the job is left unchanged. -/
def JobRec.unique (j : JobRec) (k : Key) : JobRec :=
  match j.data with
  | some _ => ⟨j.id, some ⟨some k⟩, j.alreadyExist⟩
  | none => j

/-- The guard `this.data && this.data.unique` at src/index.js:178. -/
def isUniqueJob (j : JobRec) : Bool :=
  match j.data with
  | some d => d.unique.isSome
  | none => false

/-- The world outside the registry document: the stored blob plus the queue
engine's job table and its next fresh id. -/
structure St where
  blob : Blob
  jobs : List JobRec
  nextId : JobId
deriving DecidableEq, Repr

/-- Modelled from the spec: the queue engine's plain job creation
`create(job) → (id, error)` — kue's original `Job.prototype.save`, captured
as `previousSave` at src/index.js:172 and external to this repository.  On
success the engine assigns the next fresh id and persists the job; on an
engine error nothing changes. -/
def previousSave (j : JobRec) (cerr : Option Err) (st : St) :
    Option Err × JobRec × St :=
  match cerr with
  | some e => (some e, j, st)
  | none =>
    let j' : JobRec := ⟨st.nextId, j.data, j.alreadyExist⟩
    (none, j', ⟨st.blob, st.jobs ++ [j'], st.nextId + 1⟩)

/-- Modelled from the spec: the queue engine's fetch
`fetchById(id) → (job, error)` — kue's `Job.get`, external to this
repository.  The error token `404` stands for the engine's
job-does-not-exist error. -/
def engineFetch (jobs : List JobRec) (id : JobId) : Option Err × Option JobRec :=
  match jobs.find? (fun x => x.id == id) with
  | some j => (none, some j)
  | none => (some 404, none)

/-- Modelled from the spec: the queue engine's plain removal
`remove(id) → error` — kue's original `Job.prototype.remove`, captured as
`previousRemove` at src/index.js:236 and external to this repository. -/
def previousRemove (id : JobId) (rerr : Option Err) (jobs : List JobRec) :
    Option Err × List JobRec :=
  match rerr with
  | some e => (some e, jobs)
  | none => (none, jobs.filter (fun x => !(x.id == id)))

/-- The external outcomes a single `save` flow can observe: the queue
engine's fetch behaviour and the error outcome of each store or engine
access the flow may issue, in program order. -/
structure SaveEnv where
  fetch : JobId → Option Err × Option JobRec
  lookupGetErr : Option Err
  regGetErr : Option Err
  regSetErr : Option Err
  createErr : Option Err

/-- The error-free environment whose fetch consults the engine's job table. -/
def okEnv (st : St) : SaveEnv :=
  ⟨engineFetch st.jobs, none, none, none, none⟩

/-- Outcome of the patched `save`: the callback pair `done(error, job)`, or a
`TypeError` crash from dereferencing `null`/`undefined`. -/
inductive SaveOut where
  | ret (e : Option Err) (j : Option JobRec)
  | crash
deriving DecidableEq, Repr

/-- Embeds the inner waterfall stage `_saveUniqueJobsData`
(src/index.js:213-221).  `job.data.unique` is read off the job produced by
the previous stage: a `null` job, or a job with undefined data, raises a
`TypeError` (`SaveOut.crash`).  A defined data payload without a `unique`
field yields the JS property key `"undefined"`. -/
def registerStep (jobOpt : Option JobRec) (tr : Trace) (env : SaveEnv) (st : St) :
    SaveOut × Trace × St :=
  match jobOpt with
  | none => (SaveOut.crash, tr, st)
  | some job =>
    match job.data with
    | none => (SaveOut.crash, tr, st)
    | some jd =>
      let ukey : Key :=
        match jd.unique with
        | some u => u
        | none => "undefined"
      let w := saveUniqueJobsData [(ukey, job.id)] env.regGetErr env.regSetErr st.blob
      (SaveOut.ret w.error (some job), tr ++ w.trace, ⟨w.blob, st.jobs, st.nextId⟩)

/-- The unique-job branch of the patched save (src/index.js:181-225): look
the key up; if an entry exists fetch that job and flag it, otherwise create a
new job; in either case fall through to `registerStep`.  An error from any
stage aborts the waterfall, forwarding the error and the value the callback
was invoked with. -/
def saveUnique (j : JobRec) (k : Key) (env : SaveEnv) (st : St) :
    SaveOut × Trace × St :=
  let lk := getUniqueJobData k env.lookupGetErr st.blob
  match lk.error with
  | some e => (SaveOut.ret (some e) none, lk.trace, st)
  | none =>
    match lk.doc with
    | [] =>
      let r := previousSave j env.createErr st
      match r.1 with
      | some e => (SaveOut.ret (some e) (some r.2.1), lk.trace ++ [Op.jobSave], r.2.2)
      | none => registerStep (some r.2.1) (lk.trace ++ [Op.jobSave]) env r.2.2
    | p :: _ =>
      let f := env.fetch p.2
      let fj := f.2.map (fun x => ⟨x.id, x.data, true⟩)
      match f.1 with
      | some e => (SaveOut.ret (some e) fj, lk.trace ++ [Op.jobGet p.2], st)
      | none => registerStep fj (lk.trace ++ [Op.jobGet p.2]) env st

/-- The non-unique branch of the patched save (src/index.js:229-231):
delegate directly to the queue engine's plain creation. -/
def savePlain (j : JobRec) (env : SaveEnv) (st : St) : SaveOut × Trace × St :=
  let r := previousSave j env.createErr st
  (SaveOut.ret r.1 (some r.2.1), [Op.jobSave], r.2.2)

/-- Embeds the patched `Job.prototype.save` (src/index.js:173-232): the
unique branch is taken exactly when `this.data && this.data.unique` is
truthy. -/
def save (j : JobRec) (env : SaveEnv) (st : St) : SaveOut × Trace × St :=
  match j.data with
  | none => savePlain j env st
  | some d =>
    match d.unique with
    | none => savePlain j env st
    | some k => saveUnique j k env st

/-- The external outcomes a single `remove` flow can observe: the engine
removal outcome, the outcomes of the cleanup's store accesses, and the order
in which the two parallel tasks complete (`jobFirst` = the engine removal
completes before the registry cleanup). -/
structure RemoveEnv where
  removeErr : Option Err
  regGetErr : Option Err
  regSetErr : Option Err
  jobFirst : Bool
deriving DecidableEq, Repr

/-- Result of the patched remove: the error reported to the caller's
callback, the number of parallel task completions that had occurred when the
callback was invoked (`async.parallel` invokes it at the first errored
completion, otherwise after both), and the final world state. -/
structure RemoveRes where
  reported : Option Err
  doneAfter : Nat
  st : St
deriving DecidableEq, Repr

/-- Embeds the patched `Job.prototype.remove` (src/index.js:237-256):
`async.parallel` runs the engine removal and the registry cleanup without
ordering dependency; both tasks run to completion and apply their effects,
but the final callback fires at the first errored completion (reporting that
error) or after both completions when neither errs. -/
def remove (j : JobRec) (env : RemoveEnv) (st : St) : RemoveRes :=
  let pr := previousRemove j.id env.removeErr st.jobs
  let rw := removeUniqueJobData j.id env.regGetErr env.regSetErr st.blob
  let fs : Option Err × Option Err :=
    if env.jobFirst then (pr.1, rw.error) else (rw.error, pr.1)
  let rd : Option Err × Nat :=
    match fs.1 with
    | some e => (some e, 1)
    | none =>
      match fs.2 with
      | some e => (some e, 2)
      | none => (none, 2)
  ⟨rd.1, rd.2, ⟨rw.blob, pr.2, st.nextId⟩⟩

/-- Recognizes a registry read in a trace. -/
def isStoreGet : Op → Bool
  | Op.storeGet => true
  | _ => false

/-- Recognizes a registry write in a trace. -/
def isStoreSet : Op → Bool
  | Op.storeSet _ => true
  | _ => false

/-! ## Helper lemmas about documents -/

theorem pick_append (d1 d2 : Doc) (k : Key) :
    pick (d1 ++ d2) k = pick d1 k ++ pick d2 k :=
  List.filter_append _ _

theorem pick_eq_nil (d : Doc) (k : Key) :
    pick d k = [] ↔ ∀ p ∈ d, p.1 ≠ k := by
  simp [pick, List.filter_eq_nil_iff]

theorem any_key_eq_false (d : Doc) (k : Key) (h : pick d k = []) :
    d.any (fun p => p.1 == k) = false := by
  rw [pick_eq_nil] at h
  rw [List.any_eq_false]
  intro p hp
  simpa using h p hp

theorem setEntry_fresh (d : Doc) (k : Key) (v : JobId) (h : pick d k = []) :
    setEntry d k v = d ++ [(k, v)] := by
  unfold setEntry
  rw [any_key_eq_false d k h]
  rfl

theorem pick_single_self (k : Key) (v : JobId) : pick [(k, v)] k = [(k, v)] := by
  simp [pick]

theorem pick_setEntry_fresh (d : Doc) (k : Key) (v : JobId) (h : pick d k = []) :
    pick (setEntry d k v) k = [(k, v)] := by
  rw [setEntry_fresh d k v h, pick_append, h, pick_single_self]
  rfl

theorem map_eq_self_of_eq {α : Type} (l : List α) (f : α → α)
    (h : ∀ a ∈ l, f a = a) : l.map f = l := by
  induction l with
  | nil => rfl
  | cons x xs ih =>
    simp only [List.map_cons]
    rw [h x (by simp), ih (fun a ha => h a (by simp [ha]))]

theorem mem_of_mem_pick (d : Doc) (k : Key) (p : Key × JobId)
    (h : p ∈ pick d k) : p ∈ d ∧ p.1 = k := by
  have := List.mem_filter.mp h
  exact ⟨this.1, by simpa using this.2⟩

theorem pick_mem (d : Doc) (k : Key) (p : Key × JobId)
    (hp : p ∈ d) (hk : p.1 = k) : p ∈ pick d k :=
  List.mem_filter.mpr ⟨hp, by simp [hk]⟩

theorem setEntry_self (d : Doc) (k : Key) (v : JobId)
    (h : pick d k = [(k, v)]) : setEntry d k v = d := by
  have hmem : (k, v) ∈ d := by
    have : (k, v) ∈ pick d k := by rw [h]; exact List.mem_singleton_self _
    exact (mem_of_mem_pick d k _ this).1
  have hany : d.any (fun p => p.1 == k) = true := by
    rw [List.any_eq_true]
    exact ⟨(k, v), hmem, by simp⟩
  have hall : ∀ p ∈ d, p.1 = k → p = (k, v) := by
    intro p hp hk
    have : p ∈ pick d k := pick_mem d k p hp hk
    rw [h] at this
    simpa using this
  unfold setEntry
  rw [hany]
  simp only [if_true]
  apply map_eq_self_of_eq
  intro p hp
  by_cases hk : p.1 = k
  · rw [if_pos (by simp [hk])]
    exact (hall p hp hk).symm
  · rw [if_neg (by simp [hk])]

theorem setEntry_mem (d : Doc) (k : Key) (v : JobId) : (k, v) ∈ setEntry d k v := by
  unfold setEntry
  by_cases hany : d.any (fun p => p.1 == k) = true
  · rw [if_pos hany]
    obtain ⟨p, hp, hpk⟩ := List.any_eq_true.mp hany
    refine List.mem_map.mpr ⟨p, hp, ?_⟩
    rw [if_pos hpk]
  · rw [if_neg hany]
    simp

theorem setEntry_key_unique (d : Doc) (k : Key) (v : JobId) :
    ∀ p ∈ setEntry d k v, p.1 = k → p = (k, v) := by
  intro p hp hpk
  unfold setEntry at hp
  by_cases hany : d.any (fun q => q.1 == k) = true
  · rw [if_pos hany] at hp
    obtain ⟨q, hq, hfq⟩ := List.mem_map.mp hp
    by_cases hqk : q.1 = k
    · rw [if_pos (by simp [hqk])] at hfq
      exact hfq.symm
    · rw [if_neg (by simp [hqk])] at hfq
      exact absurd (hfq ▸ hpk) hqk
  · rw [if_neg hany] at hp
    rcases List.mem_append.mp hp with h1 | h1
    · exfalso
      rw [Bool.not_eq_true, List.any_eq_false] at hany
      exact absurd (by simp [hpk]) (hany p h1)
    · simpa using h1

theorem pick_map_overwrite (d : Doc) (k k' : Key) (v : JobId) (h : k' ≠ k) :
    pick (d.map (fun p => if p.1 == k then (k, v) else p)) k' = pick d k' := by
  induction d with
  | nil => rfl
  | cons x xs ih =>
    unfold pick at ih ⊢
    simp only [List.map_cons, List.filter_cons]
    by_cases hx : x.1 = k
    · have e1 : (if (x.1 == k) = true then (k, v) else x) = (k, v) := by
        rw [if_pos (by simp [hx])]
      rw [e1]
      have e2 : (((k, v) : Key × JobId).1 == k') = false := by
        simp [Ne.symm h]
      have e3 : (x.1 == k') = false := by
        rw [hx]
        simp [Ne.symm h]
      rw [e2, e3]
      simp only [Bool.false_eq_true, if_false]
      exact ih
    · have e1 : (if (x.1 == k) = true then (k, v) else x) = x := by
        rw [if_neg (by simp [hx])]
      rw [e1]
      by_cases hk' : x.1 = k'
      · have e2 : (x.1 == k') = true := by simp [hk']
        rw [e2]
        simp only [if_true]
        rw [ih]
      · have e2 : (x.1 == k') = false := by simp [hk']
        rw [e2]
        simp only [Bool.false_eq_true, if_false]
        exact ih

theorem pick_setEntry_ne (d : Doc) (k k' : Key) (v : JobId) (h : k' ≠ k) :
    pick (setEntry d k v) k' = pick d k' := by
  unfold setEntry
  by_cases hany : d.any (fun p => p.1 == k) = true
  · rw [if_pos hany]
    exact pick_map_overwrite d k k' v h
  · rw [if_neg hany, pick_append]
    have : pick [(k, v)] k' = [] := by
      simp [pick, Ne.symm h]
    rw [this, List.append_nil]

theorem mergeDoc_single (d : Doc) (k : Key) (v : JobId) :
    mergeDoc d [(k, v)] = setEntry d k v := rfl

theorem find?_append_of_none {α : Type} (l₁ l₂ : List α) (p : α → Bool)
    (h : ∀ x ∈ l₁, p x = false) : (l₁ ++ l₂).find? p = l₂.find? p := by
  rw [List.find?_append]
  have : l₁.find? p = none := List.find?_eq_none.mpr (fun x hx => by simp [h x hx])
  rw [this]
  rfl

/-! ## Run lemmas for the two unique-job submission paths -/

/-- Complete run of an error-free submission whose key is not yet
registered: the engine creates the job with the next fresh id and the flow
registers the key. -/
theorem saveUnique_fresh_run (j : JobRec) (k : Key) (st : St)
    (hj : j.data = some ⟨some k⟩)
    (hfresh : pick (parseBlob st.blob) k = []) :
    save j (okEnv st) st =
      (SaveOut.ret none (some ⟨st.nextId, j.data, j.alreadyExist⟩),
       [Op.storeGet, Op.jobSave, Op.storeGet,
        Op.storeSet (setEntry (parseBlob st.blob) k st.nextId)],
       ⟨Blob.doc (setEntry (parseBlob st.blob) k st.nextId),
        st.jobs ++ [⟨st.nextId, j.data, j.alreadyExist⟩], st.nextId + 1⟩) := by
  have hsu : save j (okEnv st) st = saveUnique j k (okEnv st) st := by
    unfold save
    rw [hj]
  rw [hsu]
  simp only [saveUnique, getUniqueJobData, getUniqueJobsData, okEnv, hfresh,
    previousSave, registerStep, hj, saveUniqueJobsData, mergeDoc_single,
    List.cons_append, List.nil_append]

/-- Complete run of an error-free submission whose key is registered and
points at a fetchable job carrying the same key: the existing job is
returned flagged, and the existing pair is merged back into the document,
leaving its content unchanged. -/
theorem saveUnique_existing_run (j : JobRec) (k : Key) (v : JobId) (st : St)
    (jv : JobRec)
    (hj : j.data = some ⟨some k⟩)
    (hpick : pick (parseBlob st.blob) k = [(k, v)])
    (hfetch : engineFetch st.jobs v = (none, some jv))
    (hdata : jv.data = some ⟨some k⟩) :
    save j (okEnv st) st =
      (SaveOut.ret none (some ⟨jv.id, jv.data, true⟩),
       [Op.storeGet, Op.jobGet v, Op.storeGet, Op.storeSet (parseBlob st.blob)],
       ⟨Blob.doc (parseBlob st.blob), st.jobs, st.nextId⟩) := by
  have hvid : jv.id = v := by
    unfold engineFetch at hfetch
    cases hfind : st.jobs.find? (fun x => x.id == v) with
    | none =>
      rw [hfind] at hfetch
      exact absurd hfetch (by simp)
    | some j' =>
      rw [hfind] at hfetch
      have hjj : j' = jv := by
        have := congrArg Prod.snd hfetch
        simpa using this
      have hp := List.find?_some hfind
      rw [hjj] at hp
      simpa using hp
  have hmerge : mergeDoc (parseBlob st.blob) [(k, v)] = parseBlob st.blob := by
    rw [mergeDoc_single]
    exact setEntry_self _ k v hpick
  have hsu : save j (okEnv st) st = saveUnique j k (okEnv st) st := by
    unfold save
    rw [hj]
  rw [hsu]
  simp only [saveUnique, getUniqueJobData, getUniqueJobsData, okEnv, hpick,
    hfetch, Option.map, registerStep, hdata, hvid, saveUniqueJobsData,
    hmerge, List.cons_append, List.nil_append]

/-! ## Claim theorems -/

/-- C6: for every stored blob under the document key that is absent, null, or
unparseable as the mapping structure, the adapter's read returns an empty
mapping and never propagates a parse error; hence lookup on any key over
such content returns absent without error. -/
theorem parse_tolerance (k : Key) (b : Blob) (h : ∀ d, b ≠ Blob.doc d) :
    getUniqueJobsData none b = ⟨[Op.storeGet], none, []⟩ ∧
    getUniqueJobData k none b = ⟨[Op.storeGet], none, []⟩ := by
  have hb : parseBlob b = [] := by
    cases b with
    | doc d => exact absurd rfl (h d)
    | absent => rfl
    | nullContent => rfl
    | malformed => rfl
  constructor
  · simp [getUniqueJobsData, hb]
  · simp [getUniqueJobData, getUniqueJobsData, hb, pick]

/-- Witness for `parse_tolerance`: malformed stored content, key `order-42`. -/
theorem parse_tolerance_witness :
    (∀ d, Blob.malformed ≠ Blob.doc d) ∧
    getUniqueJobData "order-42" none Blob.malformed = ⟨[Op.storeGet], none, []⟩ :=
  ⟨fun _ h => Blob.noConfusion h,
   (parse_tolerance "order-42" Blob.malformed (fun _ h => Blob.noConfusion h)).2⟩

/-- C7: a job submitted without a uniqueness key issues no read and no write
against the registry document (its trace is exactly the plain engine
creation) and delegates unconditionally to plain job creation: on engine
success the job is appended to the engine's table with the next fresh id. -/
theorem save_nonunique_passthrough (j : JobRec) (env : SaveEnv) (st : St)
    (h : isUniqueJob j = false) :
    (save j env st).2.1 = [Op.jobSave] ∧
    Op.storeGet ∉ (save j env st).2.1 ∧
    (∀ m, Op.storeSet m ∉ (save j env st).2.1) ∧
    ((save j env st).2.2).blob = st.blob ∧
    (env.createErr = none →
      (save j env st).1 = SaveOut.ret none (some ⟨st.nextId, j.data, j.alreadyExist⟩) ∧
      ((save j env st).2.2).jobs = st.jobs ++ [⟨st.nextId, j.data, j.alreadyExist⟩] ∧
      ((save j env st).2.2).nextId = st.nextId + 1) := by
  have hs : save j env st = savePlain j env st := by
    unfold isUniqueJob at h
    unfold save
    cases hd : j.data with
    | none => rfl
    | some d =>
      rw [hd] at h
      have h' : d.unique.isSome = false := h
      show (match d.unique with
            | none => savePlain j env st
            | some k => saveUnique j k env st) = savePlain j env st
      cases hu : d.unique with
      | none => rfl
      | some k =>
        rw [hu] at h'
        simp at h'
  rw [hs]
  unfold savePlain previousSave
  cases hc : env.createErr with
  | some e => simp
  | none => simp

/-- Witness for `save_nonunique_passthrough`: a job with data lacking the
unique field, empty world. -/
theorem save_nonunique_passthrough_witness :
    isUniqueJob ⟨0, some ⟨none⟩, false⟩ = false ∧
    (save ⟨0, some ⟨none⟩, false⟩ (okEnv ⟨Blob.absent, [], 1⟩) ⟨Blob.absent, [], 1⟩).2.1
      = [Op.jobSave] :=
  ⟨rfl,
   (save_nonunique_passthrough ⟨0, some ⟨none⟩, false⟩ (okEnv ⟨Blob.absent, [], 1⟩)
      ⟨Blob.absent, [], 1⟩ rfl).1⟩

/-- C8: for every registry operation (lookup, merge, removeByJobId), a
store-access error raised by the underlying read or write is surfaced to the
caller unchanged, and no retry is performed: each operation issues at most
one read and at most one write. -/
theorem registry_errors_surfaced (k : Key) (u : Doc) (id : JobId)
    (gerr serr : Option Err) (b : Blob) :
    (getUniqueJobData k gerr b).error = gerr ∧
    (getUniqueJobData k gerr b).trace = [Op.storeGet] ∧
    (saveUniqueJobsData u gerr serr b).error =
      (match gerr with | some e => some e | none => serr) ∧
    (saveUniqueJobsData u gerr serr b).trace.countP isStoreGet ≤ 1 ∧
    (saveUniqueJobsData u gerr serr b).trace.countP isStoreSet ≤ 1 ∧
    (removeUniqueJobData id gerr serr b).error =
      (match gerr with | some e => some e | none => serr) ∧
    (removeUniqueJobData id gerr serr b).trace.countP isStoreGet ≤ 1 ∧
    (removeUniqueJobData id gerr serr b).trace.countP isStoreSet ≤ 1 := by
  cases gerr <;> cases serr <;>
    simp [getUniqueJobData, getUniqueJobsData, saveUniqueJobsData,
      removeUniqueJobData, List.countP_cons, List.countP_nil, List.countP_append,
      isStoreGet, isStoreSet]

/-- C3 counterexample: for a job whose data payload is undefined,
`Job.prototype.unique` does not attach the uniqueness key — the lodash merge
target `this.data || \x7b\x7d` is a fresh object that is discarded — so the
subsequent submission takes the plain (non-unique) path. -/
theorem unique_undefined_data_cex :
    (JobRec.unique ⟨5, none, false⟩ "order-42").data = none ∧
    isUniqueJob (JobRec.unique ⟨5, none, false⟩ "order-42") = false ∧
    (save (JobRec.unique ⟨5, none, false⟩ "order-42")
        (okEnv ⟨Blob.absent, [], 1⟩) ⟨Blob.absent, [], 1⟩).2.1 = [Op.jobSave] :=
  ⟨rfl, rfl, rfl⟩

/-- C3 amended: for every call of `unique` on a job whose data payload is
defined, the uniqueness key is attached to the data payload and a subsequent
submission takes the unique-job path; on a job whose data payload is
undefined the call leaves the job unchanged. -/
theorem unique_attaches (j : JobRec) (k : Key) (env : SaveEnv) (st : St) :
    (∀ d, j.data = some d →
      (JobRec.unique j k).data = some ⟨some k⟩ ∧
      isUniqueJob (JobRec.unique j k) = true ∧
      save (JobRec.unique j k) env st = saveUnique (JobRec.unique j k) k env st) ∧
    (j.data = none → JobRec.unique j k = j) := by
  constructor
  · intro d hd
    have hu : JobRec.unique j k = ⟨j.id, some ⟨some k⟩, j.alreadyExist⟩ := by
      unfold JobRec.unique
      rw [hd]
    rw [hu]
    exact ⟨rfl, rfl, rfl⟩
  · intro hd
    unfold JobRec.unique
    rw [hd]

/-- Witness for `unique_attaches`: a job with an empty (but defined) data
payload. -/
theorem unique_attaches_witness :
    (⟨7, some ⟨none⟩, false⟩ : JobRec).data = some ⟨none⟩ ∧
    (JobRec.unique ⟨7, some ⟨none⟩, false⟩ "order-42").data = some ⟨some "order-42"⟩ ∧
    isUniqueJob (JobRec.unique ⟨7, some ⟨none⟩, false⟩ "order-42") = true :=
  ⟨rfl,
   ((unique_attaches ⟨7, some ⟨none⟩, false⟩ "order-42"
      (okEnv ⟨Blob.absent, [], 1⟩) ⟨Blob.absent, [], 1⟩).1 ⟨none⟩ rfl).1,
   ((unique_attaches ⟨7, some ⟨none⟩, false⟩ "order-42"
      (okEnv ⟨Blob.absent, [], 1⟩) ⟨Blob.absent, [], 1⟩).1 ⟨none⟩ rfl).2.1⟩

/-- C4 counterexample: when the engine removal fails and completes first, the
caller's callback is invoked after only one of the two parallel task
completions — the coordinator does not wait for the registry cleanup to
finish before reporting. -/
theorem remove_early_callback_cex :
    (remove ⟨3, none, false⟩ ⟨some 7, none, none, true⟩ ⟨Blob.absent, [], 0⟩).doneAfter = 1 ∧
    (remove ⟨3, none, false⟩ ⟨some 7, none, none, true⟩ ⟨Blob.absent, [], 0⟩).reported = some 7 :=
  ⟨rfl, rfl⟩

/-- C4 amended: the coordinator runs the engine removal and the registry
cleanup without ordering dependency and both apply their effects; it reports
the first error encountered in completion order and never silently swallows
a failure; it waits for both operations to finish before invoking the
caller's callback only in the error-free case — when the first-completing
operation fails, the callback fires immediately at that completion. -/
theorem remove_first_error (j : JobRec) (env : RemoveEnv) (st : St) :
    ((remove j env st).reported = none ↔
      env.removeErr = none ∧
      (removeUniqueJobData j.id env.regGetErr env.regSetErr st.blob).error = none) ∧
    (env.removeErr = none →
      (removeUniqueJobData j.id env.regGetErr env.regSetErr st.blob).error = none →
      (remove j env st).doneAfter = 2) ∧
    (env.jobFirst = true → env.removeErr.isSome →
      (remove j env st).reported = env.removeErr ∧
      (remove j env st).doneAfter = 1) ∧
    (env.jobFirst = false →
      (removeUniqueJobData j.id env.regGetErr env.regSetErr st.blob).error.isSome →
      (remove j env st).reported =
        (removeUniqueJobData j.id env.regGetErr env.regSetErr st.blob).error ∧
      (remove j env st).doneAfter = 1) ∧
    (remove j env st).st.blob =
      (removeUniqueJobData j.id env.regGetErr env.regSetErr st.blob).blob ∧
    (remove j env st).st.jobs = (previousRemove j.id env.removeErr st.jobs).2 := by
  unfold remove
  cases hf : env.jobFirst <;>
    cases he1 : env.removeErr <;>
      cases he2 : (removeUniqueJobData j.id env.regGetErr env.regSetErr st.blob).error <;>
        simp [previousRemove, he1, he2]

/-- Witness for `remove_first_error`: error-free removal in a one-entry
world completes after both tasks. -/
theorem remove_first_error_witness :
    ((⟨none, none, none, true⟩ : RemoveEnv).removeErr = none) ∧
    ((removeUniqueJobData 3 none none Blob.absent).error = none) ∧
    (remove ⟨3, none, false⟩ ⟨none, none, none, true⟩ ⟨Blob.absent, [], 0⟩).doneAfter = 2 :=
  ⟨rfl, rfl,
   (remove_first_error ⟨3, none, false⟩ ⟨none, none, none, true⟩
      ⟨Blob.absent, [], 0⟩).2.1 rfl rfl⟩

/-- C10: on the existing-entry path, if the engine fetch completes with
neither an error nor a job, the registration step dereferences `job.data` of
the absent job (`SaveOut.crash`, the JS `TypeError` at src/index.js:216); so
the flow is free of that dereference only when an error-free fetch always
returns a job. -/
theorem save_dangling_fetch_crash (j : JobRec) (k : Key) (v : JobId)
    (rest : Doc) (st : St) (env : SaveEnv)
    (hj : j.data = some ⟨some k⟩)
    (hpick : pick (parseBlob st.blob) k = (k, v) :: rest)
    (hl : env.lookupGetErr = none)
    (hf : env.fetch v = (none, none)) :
    (save j env st).1 = SaveOut.crash := by
  have hsu : save j env st = saveUnique j k env st := by
    unfold save
    rw [hj]
  rw [hsu]
  simp [saveUnique, getUniqueJobData, getUniqueJobsData, hl, hpick, hf,
    registerStep]

/-- Witness for `save_dangling_fetch_crash`: the registry points key `k` at
id `9`, and the fetch of `9` returns neither error nor job. -/
theorem save_dangling_fetch_crash_witness :
    ((⟨0, some ⟨some "k"⟩, false⟩ : JobRec).data = some ⟨some "k"⟩) ∧
    (pick (parseBlob (Blob.doc [("k", 9)])) "k" = ("k", 9) :: []) ∧
    ((fun _ => (none, none) : JobId → Option Err × Option JobRec) 9 = (none, none)) ∧
    (save ⟨0, some ⟨some "k"⟩, false⟩
        ⟨fun _ => (none, none), none, none, none, none⟩
        ⟨Blob.doc [("k", 9)], [], 0⟩).1 = SaveOut.crash :=
  ⟨rfl, rfl, rfl,
   save_dangling_fetch_crash ⟨0, some ⟨some "k"⟩, false⟩ "k" 9 []
     ⟨Blob.doc [("k", 9)], [], 0⟩ ⟨fun _ => (none, none), none, none, none, none⟩
     rfl rfl rfl rfl⟩

/-- C2 counterexample: a submission whose uniqueness key is already
registered (key `order-42` mapped to id `1`) takes the existing-entry path —
it returns the existing job flagged as already existing — and nevertheless
issues a merge/write against the registry document. -/
theorem save_existing_write_cex :
    (save ⟨0, some ⟨some "order-42"⟩, false⟩
        (okEnv ⟨Blob.doc [("order-42", 1)], [⟨1, some ⟨some "order-42"⟩, false⟩], 2⟩)
        ⟨Blob.doc [("order-42", 1)], [⟨1, some ⟨some "order-42"⟩, false⟩], 2⟩).1
      = SaveOut.ret none (some ⟨1, some ⟨some "order-42"⟩, true⟩) ∧
    Op.storeSet [("order-42", 1)] ∈
      (save ⟨0, some ⟨some "order-42"⟩, false⟩
        (okEnv ⟨Blob.doc [("order-42", 1)], [⟨1, some ⟨some "order-42"⟩, false⟩], 2⟩)
        ⟨Blob.doc [("order-42", 1)], [⟨1, some ⟨some "order-42"⟩, false⟩], 2⟩).2.1 := by
  constructor
  · rfl
  · decide

/-- C5: `removeUniqueJobData` reads the document, removes every entry whose
value equals the given id (keeping all others), writes the result back and
returns the updated document; lookup of a key whose entries all pointed at
the removed id is afterwards absent; and within the remove flow the cleanup
is applied to the store regardless of the engine removal's outcome. -/
theorem removeByJobId_spec (id : JobId) (b : Blob) (k : Key) (j : JobRec)
    (env : RemoveEnv) (st : St) :
    (∀ p ∈ parseBlob b, p.2 ≠ id → p ∈ (removeUniqueJobData id none none b).doc) ∧
    (∀ p ∈ (removeUniqueJobData id none none b).doc, p.2 ≠ id ∧ p ∈ parseBlob b) ∧
    (removeUniqueJobData id none none b).blob =
      Blob.doc ((removeUniqueJobData id none none b).doc) ∧
    (removeUniqueJobData id none none b).error = none ∧
    ((∀ p ∈ parseBlob b, p.1 = k → p.2 = id) →
      getUniqueJobData k none (removeUniqueJobData id none none b).blob =
        ⟨[Op.storeGet], none, []⟩) ∧
    (env.regGetErr = none → env.regSetErr = none →
      (remove j env st).st.blob =
        Blob.doc ((parseBlob st.blob).filter (fun p => !(p.2 == j.id)))) := by
  have hdoc : (removeUniqueJobData id none none b).doc =
      (parseBlob b).filter (fun p => !(p.2 == id)) := rfl
  refine ⟨?_, ?_, rfl, rfl, ?_, ?_⟩
  · intro p hp hne
    rw [hdoc]
    exact List.mem_filter.mpr ⟨hp, by simpa using hne⟩
  · intro p hp
    rw [hdoc] at hp
    have h2 := List.mem_filter.mp hp
    exact ⟨by simpa using h2.2, h2.1⟩
  · intro hall
    have hblob : (removeUniqueJobData id none none b).blob =
        Blob.doc ((parseBlob b).filter (fun p => !(p.2 == id))) := rfl
    rw [hblob]
    have hpick : pick ((parseBlob b).filter (fun p => !(p.2 == id))) k = [] := by
      rw [pick_eq_nil]
      intro p hp hk
      have h2 := List.mem_filter.mp hp
      have : p.2 = id := hall p h2.1 hk
      simp [this] at h2
    have hred : getUniqueJobData k none
        (Blob.doc ((parseBlob b).filter (fun p => !(p.2 == id)))) =
        ⟨[Op.storeGet], none, pick ((parseBlob b).filter (fun p => !(p.2 == id))) k⟩ := rfl
    rw [hred, hpick]
  · intro h1 h2
    unfold remove
    rw [h1, h2]
    rfl

/-- Witness for `removeByJobId_spec`: a three-entry document where keys `a`
and `c` both point at the removed id `1`; the lookup of `a` is afterwards
absent. -/
theorem removeByJobId_spec_witness :
    (∀ p ∈ parseBlob (Blob.doc [("a", 1), ("b", 2), ("c", 1)]), p.1 = "a" → p.2 = 1) ∧
    getUniqueJobData "a" none
        (removeUniqueJobData 1 none none (Blob.doc [("a", 1), ("b", 2), ("c", 1)])).blob =
      ⟨[Op.storeGet], none, []⟩ :=
  ⟨by decide,
   (removeByJobId_spec 1 (Blob.doc [("a", 1), ("b", 2), ("c", 1)]) "a"
      ⟨0, none, false⟩ ⟨none, none, none, true⟩
      ⟨Blob.absent, [], 0⟩).2.2.2.2.1 (by decide)⟩

/-- C9: merging a key-to-id pair reads the document, sets that key's entry
to the id (overwriting any prior value for the key), leaves every other
key's entries unchanged, writes the full document back, and returns the
updated document without error. -/
theorem merge_overwrites_key (k : Key) (v : JobId) (b : Blob) :
    (k, v) ∈ (saveUniqueJobsData [(k, v)] none none b).doc ∧
    (∀ p ∈ (saveUniqueJobsData [(k, v)] none none b).doc, p.1 = k → p = (k, v)) ∧
    (∀ k', k' ≠ k →
      pick ((saveUniqueJobsData [(k, v)] none none b).doc) k' =
        pick (parseBlob b) k') ∧
    (saveUniqueJobsData [(k, v)] none none b).blob =
      Blob.doc ((saveUniqueJobsData [(k, v)] none none b).doc) ∧
    (saveUniqueJobsData [(k, v)] none none b).error = none := by
  have hdoc : (saveUniqueJobsData [(k, v)] none none b).doc =
      setEntry (parseBlob b) k v := rfl
  refine ⟨?_, ?_, ?_, rfl, rfl⟩
  · rw [hdoc]
    exact setEntry_mem _ k v
  · rw [hdoc]
    exact setEntry_key_unique _ k v
  · intro k' hk'
    rw [hdoc]
    exact pick_setEntry_ne _ k k' v hk'

/-- Witness for `merge_overwrites_key`: overwriting `order-42` from id `1`
to id `5` leaves the `other` entry unchanged. -/
theorem merge_overwrites_key_witness :
    ("other" ≠ "order-42") ∧
    ("order-42", 5) ∈
      (saveUniqueJobsData [("order-42", 5)] none none
        (Blob.doc [("order-42", 1), ("other", 2)])).doc ∧
    pick ((saveUniqueJobsData [("order-42", 5)] none none
        (Blob.doc [("order-42", 1), ("other", 2)])).doc) "other" =
      pick (parseBlob (Blob.doc [("order-42", 1), ("other", 2)])) "other" :=
  ⟨by decide,
   (merge_overwrites_key "order-42" 5 (Blob.doc [("order-42", 1), ("other", 2)])).1,
   (merge_overwrites_key "order-42" 5
      (Blob.doc [("order-42", 1), ("other", 2)])).2.2.1 "other" (by decide)⟩

/-- C1: two sequential error-free submissions carrying the same uniqueness
key — the key initially unregistered, the engine's next id fresh, and the
second submission starting from the state left by the first submission's
completed registration — return jobs with the same identifier, and the
second returned job is flagged as already existing (while the first is
returned with its flag untouched). -/
theorem save_idempotent (k : Key) (j1 j2 : JobRec) (st0 : St)
    (h1 : j1.data = some ⟨some k⟩) (h2 : j2.data = some ⟨some k⟩)
    (hfresh : pick (parseBlob st0.blob) k = [])
    (hid : ∀ x ∈ st0.jobs, x.id ≠ st0.nextId) :
    ∃ jA jB : JobRec,
      (save j1 (okEnv st0) st0).1 = SaveOut.ret none (some jA) ∧
      (save j2 (okEnv ((save j1 (okEnv st0) st0).2.2))
          ((save j1 (okEnv st0) st0).2.2)).1 = SaveOut.ret none (some jB) ∧
      jB.id = jA.id ∧
      jA.alreadyExist = j1.alreadyExist ∧
      jB.alreadyExist = true := by
  have hrun1 := saveUnique_fresh_run j1 k st0 h1 hfresh
  have hst1 : (save j1 (okEnv st0) st0).2.2 =
      ⟨Blob.doc (setEntry (parseBlob st0.blob) k st0.nextId),
       st0.jobs ++ [⟨st0.nextId, j1.data, j1.alreadyExist⟩], st0.nextId + 1⟩ := by
    rw [hrun1]
  have hpick2 : pick (parseBlob (Blob.doc (setEntry (parseBlob st0.blob) k st0.nextId))) k
      = [(k, st0.nextId)] := pick_setEntry_fresh _ k _ hfresh
  have hfetch2 : engineFetch (st0.jobs ++ [⟨st0.nextId, j1.data, j1.alreadyExist⟩])
      st0.nextId = (none, some ⟨st0.nextId, j1.data, j1.alreadyExist⟩) := by
    unfold engineFetch
    rw [find?_append_of_none _ _ _ (fun x hx => by simp [hid x hx])]
    simp [List.find?_cons]
  have hdata2 : (⟨st0.nextId, j1.data, j1.alreadyExist⟩ : JobRec).data
      = some ⟨some k⟩ := h1
  have hrun2 := saveUnique_existing_run j2 k st0.nextId
      ⟨Blob.doc (setEntry (parseBlob st0.blob) k st0.nextId),
       st0.jobs ++ [⟨st0.nextId, j1.data, j1.alreadyExist⟩], st0.nextId + 1⟩
      ⟨st0.nextId, j1.data, j1.alreadyExist⟩ h2 hpick2 hfetch2 hdata2
  refine ⟨⟨st0.nextId, j1.data, j1.alreadyExist⟩,
          ⟨st0.nextId, j1.data, true⟩, ?_, ?_, rfl, rfl, rfl⟩
  · rw [hrun1]
  · rw [hst1, hrun2]

/-- Witness for `save_idempotent`: key `order-42` submitted twice into an
initially empty world. -/
theorem save_idempotent_witness :
    pick (parseBlob ((⟨Blob.absent, [], 1⟩ : St).blob)) "order-42" = [] ∧
    (∀ x ∈ (⟨Blob.absent, [], 1⟩ : St).jobs, x.id ≠ (⟨Blob.absent, [], 1⟩ : St).nextId) ∧
    (∃ jA jB : JobRec,
      (save ⟨0, some ⟨some "order-42"⟩, false⟩ (okEnv ⟨Blob.absent, [], 1⟩)
          ⟨Blob.absent, [], 1⟩).1 = SaveOut.ret none (some jA) ∧
      (save ⟨0, some ⟨some "order-42"⟩, false⟩
          (okEnv ((save ⟨0, some ⟨some "order-42"⟩, false⟩ (okEnv ⟨Blob.absent, [], 1⟩)
            ⟨Blob.absent, [], 1⟩).2.2))
          ((save ⟨0, some ⟨some "order-42"⟩, false⟩ (okEnv ⟨Blob.absent, [], 1⟩)
            ⟨Blob.absent, [], 1⟩).2.2)).1 = SaveOut.ret none (some jB) ∧
      jB.id = jA.id ∧
      jA.alreadyExist = (⟨0, some ⟨some "order-42"⟩, false⟩ : JobRec).alreadyExist ∧
      jB.alreadyExist = true) :=
  ⟨rfl, by simp,
   save_idempotent "order-42" ⟨0, some ⟨some "order-42"⟩, false⟩
     ⟨0, some ⟨some "order-42"⟩, false⟩ ⟨Blob.absent, [], 1⟩ rfl rfl rfl (by simp)⟩

/-- C2 amended: on the existing-entry path the coordinator fetches the
referenced job, flags it as already existing, and performs no job creation;
however, a registration merge IS issued against the registry document on
this path — it re-writes the existing key-to-id pair, so the document's
content is left unchanged. -/
theorem save_existing_path (j : JobRec) (k : Key) (v : JobId) (st : St)
    (jv : JobRec)
    (hj : j.data = some ⟨some k⟩)
    (hpick : pick (parseBlob st.blob) k = [(k, v)])
    (hfetch : engineFetch st.jobs v = (none, some jv))
    (hdata : jv.data = some ⟨some k⟩) :
    (save j (okEnv st) st).1 = SaveOut.ret none (some ⟨jv.id, jv.data, true⟩) ∧
    Op.jobSave ∉ (save j (okEnv st) st).2.1 ∧
    Op.storeSet (parseBlob st.blob) ∈ (save j (okEnv st) st).2.1 ∧
    parseBlob ((save j (okEnv st) st).2.2).blob = parseBlob st.blob ∧
    ((save j (okEnv st) st).2.2).jobs = st.jobs := by
  have hrun := saveUnique_existing_run j k v st jv hj hpick hfetch hdata
  rw [hrun]
  refine ⟨rfl, by simp, by simp, rfl, rfl⟩

/-- Witness for `save_existing_path`: the registry maps `order-42` to job
`1`, which exists in the engine and carries the same key. -/
theorem save_existing_path_witness :
    pick (parseBlob ((⟨Blob.doc [("order-42", 1)],
      [⟨1, some ⟨some "order-42"⟩, false⟩], 2⟩ : St).blob)) "order-42"
      = [("order-42", 1)] ∧
    engineFetch [⟨1, some ⟨some "order-42"⟩, false⟩] 1
      = (none, some ⟨1, some ⟨some "order-42"⟩, false⟩) ∧
    (save ⟨0, some ⟨some "order-42"⟩, false⟩
        (okEnv ⟨Blob.doc [("order-42", 1)], [⟨1, some ⟨some "order-42"⟩, false⟩], 2⟩)
        ⟨Blob.doc [("order-42", 1)], [⟨1, some ⟨some "order-42"⟩, false⟩], 2⟩).1
      = SaveOut.ret none (some ⟨1, some ⟨some "order-42"⟩, true⟩) ∧
    parseBlob ((save ⟨0, some ⟨some "order-42"⟩, false⟩
        (okEnv ⟨Blob.doc [("order-42", 1)], [⟨1, some ⟨some "order-42"⟩, false⟩], 2⟩)
        ⟨Blob.doc [("order-42", 1)], [⟨1, some ⟨some "order-42"⟩, false⟩], 2⟩).2.2).blob
      = parseBlob ((⟨Blob.doc [("order-42", 1)],
          [⟨1, some ⟨some "order-42"⟩, false⟩], 2⟩ : St).blob) :=
  ⟨rfl, rfl,
   (save_existing_path ⟨0, some ⟨some "order-42"⟩, false⟩ "order-42" 1
      ⟨Blob.doc [("order-42", 1)], [⟨1, some ⟨some "order-42"⟩, false⟩], 2⟩
      ⟨1, some ⟨some "order-42"⟩, false⟩ rfl rfl rfl rfl).1,
   (save_existing_path ⟨0, some ⟨some "order-42"⟩, false⟩ "order-42" 1
      ⟨Blob.doc [("order-42", 1)], [⟨1, some ⟨some "order-42"⟩, false⟩], 2⟩
      ⟨1, some ⟨some "order-42"⟩, false⟩ rfl rfl rfl rfl).2.2.2.1⟩

end KueUnique
